import Mathlib

/-!
Shallow embedding of the Test Suite Aggregation Engine of
`dash_devtools/test_suite.py` (class `TestSuiteRunner` and its data model),
together with proofs settling the frozen claims about it.

Modelling conventions:
* machine floats (`duration`, `coverage`) are modelled as exact rationals;
* `subprocess.run`, `json.loads`, `re.finditer` over complex patterns and
  `base64.b64decode(...).decode('utf-8')` are Python-stdlib/external calls;
  they are modelled as explicit oracle fields of an `Env` record, so every
  run function is a pure function of the `Env` that describes one project
  and the outcome of each external invocation;
* the fixed `re.search` patterns of the parser are implemented concretely
  (they are simple token sequences: literals, `\s+`, `(\d+)`, `([\d.]+)`,
  for which Python's leftmost/greedy semantics collapse to maximal-munch,
  because adjacent token character classes are disjoint);
* absent JSON keys read through `.get(k, default)` are modelled by record
  fields holding the default value.
-/

set_option maxRecDepth 40000

namespace DashDevtools

/-- Model of the `TestCase` dataclass of `test_suite.py`. -/
structure TestCase where
  name : String
  status : String
  duration : ℚ := 0
  error : String := ""
  screenshot : String := ""
  api_response : String := ""
  terminal_output : String := ""
  deriving Repr, DecidableEq

/-- Model of the `TestTypeResult` dataclass of `test_suite.py` (the `details` list is
never written by the engine and is omitted). -/
structure TestTypeResult where
  test_type : String
  passed : Int := 0
  failed : Int := 0
  skipped : Int := 0
  duration : ℚ := 0
  coverage : ℚ := 0
  success : Bool := true
  error : String := ""
  test_cases : List TestCase := []
  not_configured : Bool := false
  deriving Repr, DecidableEq

/-- Model of the `TestSuiteResult` dataclass of `test_suite.py`; the `results` dict is
modelled as an insertion-ordered association list. -/
structure TestSuiteResult where
  project_name : String
  results : List (String × TestTypeResult) := []
  total_passed : Int := 0
  total_failed : Int := 0
  total_duration : ℚ := 0
  overall_success : Bool := true
  coverage : ℚ := 0
  timestamp : String := ""
  deriving Repr, DecidableEq

/-! ## Concrete models of the fixed `re` patterns used by the parser -/

/-- Python `\s` on ASCII text: space, tab, newline, carriage return,
form feed, vertical tab. -/
def isPyWS (c : Char) : Bool :=
  c = ' ' || c = '\t' || c = '\n' || c = '\r' || c = '\x0b' || c = '\x0c'

/-- Token of one of the fixed regex patterns: a literal, `\s+`, a
non-capturing `\d+`, a capturing `(\d+)`, or a capturing `([\d.]+)`. -/
inductive RTok where
  | lit (s : List Char)
  | ws
  | digs
  | capDigits
  | capNum
  deriving Repr, DecidableEq

/-- Maximal run of characters satisfying `p` (greedy class repetition). -/
def takeRun (p : Char → Bool) : List Char → List Char × List Char
  | [] => ([], [])
  | c :: rest =>
    if p c then
      let (r, l) := takeRun p rest
      (c :: r, l)
    else ([], c :: rest)

/-- Match a token sequence at the current position, returning the single
capture group. For these patterns greedy matching with backtracking is
equivalent to maximal-munch, since no character both ends a repetition
class and starts the following token. -/
def matchToksAt : List RTok → List Char → Option (List Char) → Option (List Char)
  | [], _, cap => some (cap.getD [])
  | .lit s :: ts, l, cap =>
    if s.isPrefixOf l then matchToksAt ts (l.drop s.length) cap else none
  | .ws :: ts, l, cap =>
    let (r, l2) := takeRun isPyWS l
    if r.isEmpty then none else matchToksAt ts l2 cap
  | .digs :: ts, l, cap =>
    let (r, l2) := takeRun Char.isDigit l
    if r.isEmpty then none else matchToksAt ts l2 cap
  | .capDigits :: ts, l, _cap =>
    let (r, l2) := takeRun Char.isDigit l
    if r.isEmpty then none else matchToksAt ts l2 (some r)
  | .capNum :: ts, l, _cap =>
    let (r, l2) := takeRun (fun c => c.isDigit || c = '.') l
    if r.isEmpty then none else matchToksAt ts l2 (some r)

/-- Model of `re.search`: leftmost position at which the pattern matches. -/
def searchToks (ts : List RTok) : List Char → Option (List Char)
  | [] => matchToksAt ts [] none
  | c :: rest =>
    match matchToksAt ts (c :: rest) none with
    | some r => some r
    | none => searchToks ts rest

def litL (s : String) : RTok := .lit s.data

/-- Pattern `Tests\s+(\d+)\s+passed` (vitest summary, line 205). -/
def testsPassedPat : List RTok := [litL "Tests", .ws, .capDigits, .ws, litL "passed"]
/-- Pattern `(\d+)\s+passed` (vitest fallback summary, line 209). -/
def anyPassedWsPat : List RTok := [.capDigits, .ws, litL "passed"]
/-- Pattern `(\d+)\s+failed` (vitest summary, line 213). -/
def anyFailedWsPat : List RTok := [.capDigits, .ws, litL "failed"]
/-- Pattern `All files\s+\|\s+([\d.]+)` (coverage table, lines 164 and 218). -/
def allFilesPat : List RTok := [litL "All files", .ws, litL "|", .ws, .capNum]
/-- Pattern `Duration\s+([\d.]+)ms` (line 223). -/
def durMsPat : List RTok := [litL "Duration", .ws, .capNum, litL "ms"]
/-- Pattern `Duration\s+([\d.]+)s` (line 227). -/
def durSPat : List RTok := [litL "Duration", .ws, .capNum, litL "s"]
/-- Pattern `Tests:\s+(\d+) passed` (jest, line 244). -/
def jestPassedPat : List RTok := [litL "Tests:", .ws, .capDigits, litL " passed"]
/-- Pattern `(\d+) passed` (jest/pytest/playwright-fallback summaries). -/
def spacePassedPat : List RTok := [.capDigits, litL " passed"]
/-- Pattern `(\d+) failed` (jest/pytest/playwright-fallback summaries). -/
def spaceFailedPat : List RTok := [.capDigits, litL " failed"]
/-- Pattern `TOTAL\s+\d+\s+\d+\s+(\d+)%` (pytest coverage, line 274). -/
def pytestTotalPat : List RTok :=
  [litL "TOTAL", .ws, .digs, .ws, .digs, .ws, .capDigits, litL "%"]
/-- Pattern `\(([\d.]+)s\)` (playwright duration, line 380). -/
def pwDurPat : List RTok := [litL "(", .capNum, litL "s)"]

/-- Python `int()` on a `\d+` capture. -/
def digitsToNat (l : List Char) : Nat :=
  l.foldl (fun n c => n * 10 + (c.toNat - 48)) 0

/-- Python `float()` on a `[\d.]+` capture: defined iff there is at least
one digit and at most one dot; otherwise `float` raises `ValueError`. -/
def pyFloatQ (l : List Char) : Option ℚ :=
  if l.any Char.isDigit ∧ l.countP (fun c => c = '.') ≤ 1
      ∧ l.all (fun c => c.isDigit || c = '.') then
    let intPart := l.takeWhile (fun c => c ≠ '.')
    let frac := (l.dropWhile (fun c => c ≠ '.')).drop 1
    some ((digitsToNat intPart : ℚ) + (digitsToNat frac : ℚ) / (10 : ℚ) ^ frac.length)
  else none

/-- Message of the `ValueError` raised by Python `float()`. -/
def floatErrMsg (g : List Char) : String :=
  "could not convert string to float: '" ++ String.mk g ++ "'"

/-! ## ANSI escape stripping (the fixed escape-sequence pattern of line 146) -/

/-- After an ESC character: length of the remainder of an ANSI escape
sequence match, if the pattern matches here. -/
def ansiSeqLen (l : List Char) : Option Nat :=
  match l with
  | [] => none
  | d :: rest =>
    if d = '[' then
      let (ps, r1) := takeRun (fun c => 0x30 ≤ c.toNat && c.toNat ≤ 0x3f) rest
      let (im, r2) := takeRun (fun c => 0x20 ≤ c.toNat && c.toNat ≤ 0x2f) r1
      match r2 with
      | f :: _ =>
        if 0x40 ≤ f.toNat && f.toNat ≤ 0x7e then some (2 + ps.length + im.length)
        else none
      | [] => none
    else if (0x40 ≤ d.toNat && d.toNat ≤ 0x5a) || (0x5c ≤ d.toNat && d.toNat ≤ 0x5f) then
      some 1
    else none

/-- Worker for `stripAnsiL`; the fuel argument only bounds recursion and
is always at least the list length, so the `0` case is unreachable. -/
def stripAnsiGo : Nat → List Char → List Char
  | 0, l => l
  | _ + 1, [] => []
  | fuel + 1, c :: rest =>
    if c = '\x1b' then
      match ansiSeqLen rest with
      | some n => stripAnsiGo fuel (rest.drop n)
      | none => c :: stripAnsiGo fuel rest
    else c :: stripAnsiGo fuel rest

/-- Model of `ansi_escape.sub('', output)`: remove every non-overlapping ANSI escape
sequence; an ESC that starts no full sequence is kept. -/
def stripAnsiL (l : List Char) : List Char :=
  stripAnsiGo l.length l

/-- Substring test (Python `needle in haystack`). -/
def hasInfix (needle : List Char) : List Char → Bool
  | [] => needle.isEmpty
  | c :: rest => needle.isPrefixOf (c :: rest) || hasInfix needle rest

/-- Python `str.strip()`. -/
def pyStrip (s : String) : String :=
  String.mk (((s.data.dropWhile isPyWS).reverse.dropWhile isPyWS).reverse)

/-- Python `str.lower()` (ASCII). -/
def pyLower (s : String) : String :=
  String.mk (s.data.map Char.toLower)

/-- Python `str.upper()` (ASCII). -/
def pyUpper (s : String) : String :=
  String.mk (s.data.map Char.toUpper)

/-- Split a character list at `/` separators. -/
def splitSlash : List Char → List Char → List (List Char)
  | [], acc => [acc.reverse]
  | c :: rest, acc =>
    if c = '/' then acc.reverse :: splitSlash rest []
    else splitSlash rest (c :: acc)

/-- Model of `pathlib.Path(s).name`: last non-empty path component, with
the pathlib special cases for `.` and `..`. -/
def pathName (s : String) : String :=
  let comps := (splitSlash s.data []).filter (fun c => ¬ c.isEmpty)
  match comps.getLast? with
  | none => ""
  | some c => if c = ['.'] ∨ c = ['.', '.'] then "" else String.mk c

/-- Indices at which `needle` occurs in `l`. -/
def occIdxs (needle : List Char) (l : List Char) : List Nat :=
  (List.range (l.length + 1)).filter (fun i => needle.isPrefixOf (l.drop i))

/-- The quoted literal `"testResults"` (13 characters). -/
def tsLit : List Char := ("\"testResults\"").data

/-- Model of the JSON-extraction search of line 153 (first brace to last brace
around a `"testResults"` occurrence):
leftmost `{` admitting a completion; the first greedy `[\s\S]*` picks the
last usable `"testResults"` occurrence, the second picks the last `}`. -/
def vitestJsonSearch (s : String) : Option String :=
  let l := s.data
  let opens := (List.range l.length).filter (fun i => l.getD i ' ' = '{')
  let lits := occIdxs tsLit l
  let closes := (List.range l.length).filter (fun i => l.getD i ' ' = '}')
  let usable := fun (f : Nat) =>
    lits.any (fun t => f + 1 ≤ t && closes.any (fun c => t + 13 ≤ c))
  match opens.find? usable with
  | none => none
  | some f =>
    let ts := lits.filter (fun t => f + 1 ≤ t && closes.any (fun c => t + 13 ≤ c))
    let t := ts.foldl max 0
    let cs := closes.filter (fun c => t + 13 ≤ c)
    let cend := cs.foldl max 0
    some (String.mk ((l.drop f).take (cend + 1 - f)))

/-! ## Decoded JSON payloads

The engine reads decoded JSON only through fixed `.get(key, default)`
chains; each payload is therefore modelled as a typed record whose fields
hold the `.get` default when the key is absent. -/

/-- One entry of `assertionResults` in the vitest JSON report. -/
structure VitestAssertion where
  ancestorTitles : List String := []
  title : String := ""
  status : String := "passed"
  duration : ℚ := 0
  deriving Repr, DecidableEq

/-- One entry of `testResults` in the vitest JSON report. -/
structure VitestFile where
  name : String := ""
  assertionResults : List VitestAssertion := []
  deriving Repr, DecidableEq

/-- Top level of the vitest JSON report. -/
structure VitestPayload where
  numPassedTests : Int := 0
  numFailedTests : Int := 0
  numTotalTests : Int := 0
  numTotalTestSuites : Int := 0
  testResults : List VitestFile := []
  deriving Repr, DecidableEq

/-- One attachment of a Playwright test attempt. An absent `path`/`body`
key is modelled by the empty string (Python `att.get('path')` is then
falsy, exactly like an empty string). -/
structure PwAttachment where
  name : String := ""
  path : String := ""
  body : String := ""
  deriving Repr, DecidableEq

/-- A truthy `error` object of a Playwright attempt (`res['error']`). -/
structure PwErrObj where
  message : String := ""
  deriving Repr, DecidableEq

/-- One recorded attempt in a Playwright test's `results` list. `error`
is `some e` when `res.get('error')` is truthy (a non-empty dict). -/
structure PwAttemptResult where
  status : String := "passed"
  duration : ℚ := 0
  error : Option PwErrObj := none
  attachments : List PwAttachment := []
  deriving Repr, DecidableEq

/-- One `tests` entry of a Playwright spec. -/
structure PwTest where
  results : List PwAttemptResult := []
  deriving Repr, DecidableEq

/-- One `specs` entry of a Playwright suite. -/
structure PwSpec where
  title : String := ""
  tests : List PwTest := []
  deriving Repr, DecidableEq

mutual

/-- A Playwright suite node: title, specs and nested sub-suites. The list
of children is a specialised list type (`PwSuiteList`) so that recursion
over the tree is structural; `nil`/`cons` correspond to the empty and
non-empty JSON arrays. -/
inductive PwSuite where
  | mk (title : String) (specs : List PwSpec) (suites : PwSuiteList)

/-- A list of sibling Playwright suites. -/
inductive PwSuiteList where
  | nil
  | cons (s : PwSuite) (rest : PwSuiteList)

end

def PwSuite.title : PwSuite → String
  | .mk t _ _ => t

def PwSuite.specs : PwSuite → List PwSpec
  | .mk _ s _ => s

def PwSuite.suites : PwSuite → PwSuiteList
  | .mk _ _ u => u

/-- Top level of the Playwright JSON report. -/
structure PwRoot where
  suites : PwSuiteList := .nil

/-- One match of the vitest textual-fallback pattern
`[✓✗]\s+(\S+\.spec\.ts)\s+\((\d+)\s+tests?\)` (line 195): the file group,
the count group, and whether the marker character was `✓`. -/
structure UitFileMatch where
  file : String
  count : Nat
  check : Bool
  deriving Repr, DecidableEq

/-- Outcome of one `subprocess.run` invocation: normal completion with
exit code and captured output, `TimeoutExpired`, or another exception. -/
inductive ProcOutcome where
  | ok (returncode : Int) (stdout stderr : String)
  | timeout
  | exc (msg : String)
  deriving Repr, DecidableEq

/-- The four framework-detection booleans of `detect_test_setup` that the
run functions read (`package_scripts`/`test_dirs` are never consulted). -/
structure TestSetup where
  has_vitest : Bool := false
  has_jest : Bool := false
  has_playwright : Bool := false
  has_pytest : Bool := false
  deriving Repr, DecidableEq

/-- Everything external to the engine for one project: the detected setup,
the spec-file glob, the outcome of each subprocess invocation (keyed by
its command line), and the Python-stdlib oracles (`json.loads` per call
site, the two complex `re.finditer` patterns, base64+utf-8 decoding).
Functions of the same input always return the same value, matching the
deterministic, strictly sequential execution model. -/
structure Env where
  projectName : String
  timestamp : String
  setup : TestSetup
  specFilesFound : String → Bool
  procRun : List String → ProcOutcome
  vitestJsonLoads : String → Option VitestPayload
  pwJsonLoads : String → Option PwRoot
  uitSpecFileMatches : String → List UitFileMatch
  pwCaseMatches : String → List String
  b64DecodeUtf8 : String → Option String

/-! ## `run_uit` (lines 122-291) -/

/-- Command line built for vitest (lines 130-132). -/
def vitestCmd (with_coverage : Bool) : List String :=
  if with_coverage then ["npx", "vitest", "run", "--reporter=json", "--coverage"]
  else ["npx", "vitest", "run", "--reporter=json"]

/-- Per-assertion `TestCase` records built from the vitest JSON report
(lines 179-191). -/
def vitestCases (payload : VitestPayload) : List TestCase :=
  payload.testResults.flatMap fun tf =>
    tf.assertionResults.map fun a =>
      { name := pathName tf.name ++ " › " ++
          String.intercalate " › " (a.ancestorTitles ++ [a.title])
        status := a.status
        duration := a.duration / 1000 }

/-- Pseudo-cases synthesized per test file when the extracted JSON fails
to decode (lines 192-202). -/
def uitFallbackCases (ms : List UitFileMatch) : List TestCase :=
  ms.map fun m =>
    { name := pathName m.file ++ " (" ++ toString m.count ++ " tests)"
      status := if m.check then "passed" else "failed" }

/-- The `try` block of lines 150-202: JSON extraction, decoding, counts,
in-JSON coverage and per-case construction. `Sum.inr` carries the partial
result and the message of an uncaught `ValueError` from `float()`, which
jumps to the `except Exception` handler of line 287. -/
def uitJsonStage (env : Env) (r0 : TestTypeResult) (stdout : String)
    (clean : List Char) : Sum TestTypeResult (TestTypeResult × String) :=
  match vitestJsonSearch stdout with
  | none => .inl r0
  | some g =>
    match env.vitestJsonLoads g with
    | none =>
      .inl { r0 with
        test_cases := uitFallbackCases (env.uitSpecFileMatches (String.mk clean)) }
    | some payload =>
      let r1 := { r0 with
        passed := payload.numPassedTests
        failed := payload.numFailedTests }
      match searchToks allFilesPat clean with
      | some cg =>
        match pyFloatQ cg with
        | none => .inr (r1, floatErrMsg cg)
        | some cv => .inl { r1 with coverage := cv, test_cases := vitestCases payload }
      | none => .inl { r1 with test_cases := vitestCases payload }

/-- The textual statistics of lines 204-215, which overwrite the counts
whenever a summary line matches. -/
def uitOverrides (r : TestTypeResult) (clean : List Char) : TestTypeResult :=
  let r1 :=
    match searchToks testsPassedPat clean with
    | some g => { r with passed := (digitsToNat g : Int) }
    | none =>
      match searchToks anyPassedWsPat clean with
      | some g => { r with passed := (digitsToNat g : Int) }
      | none => r
  match searchToks anyFailedWsPat clean with
  | some g => { r1 with failed := (digitsToNat g : Int) }
  | none => r1

/-- The duration parsing of lines 222-229 (`float()` may raise, reaching
the outer handler). -/
def uitDurStep (r : TestTypeResult) (clean : List Char) : TestTypeResult :=
  match searchToks durMsPat clean with
  | some g =>
    match pyFloatQ g with
    | none => { r with success := false, error := floatErrMsg g }
    | some v => { r with duration := v / 1000 }
  | none =>
    match searchToks durSPat clean with
    | some g =>
      match pyFloatQ g with
      | none => { r with success := false, error := floatErrMsg g }
      | some v => { r with duration := v }
    | none => r

/-- The coverage parsing of lines 217-220 followed by duration parsing;
a `float()` failure reaches the outer handler, skipping the rest. -/
def uitCovDur (r : TestTypeResult) (clean : List Char) : TestTypeResult :=
  match searchToks allFilesPat clean with
  | some g =>
    match pyFloatQ g with
    | none => { r with success := false, error := floatErrMsg g }
    | some v => uitDurStep { r with coverage := v } clean
  | none => uitDurStep r clean

/-- The vitest branch of `run_uit` (lines 128-229 with the handlers of
lines 284-289). -/
def runUitVitest (env : Env) (with_coverage : Bool) : TestTypeResult :=
  match env.procRun (vitestCmd with_coverage) with
  | .timeout => { test_type := "UIT", success := false, error := "測試超時 (5分鐘)" }
  | .exc m => { test_type := "UIT", success := false, error := m }
  | .ok rc stdout stderr =>
    let clean := stripAnsiL (stdout ++ stderr).data
    let r0 : TestTypeResult := { test_type := "UIT", success := rc == 0 }
    match uitJsonStage env r0 stdout clean with
    | .inr (r, m) => { r with success := false, error := m }
    | .inl r => uitCovDur (uitOverrides r clean) clean

/-- The jest branch of `run_uit` (lines 231-250). -/
def runUitJest (env : Env) (with_coverage : Bool) : TestTypeResult :=
  let cmd := if with_coverage then ["npx", "jest", "--coverage"] else ["npx", "jest"]
  match env.procRun cmd with
  | .timeout => { test_type := "UIT", success := false, error := "測試超時 (5分鐘)" }
  | .exc m => { test_type := "UIT", success := false, error := m }
  | .ok rc stdout stderr =>
    let out := (stdout ++ stderr).data
    let r : TestTypeResult := { test_type := "UIT", success := rc == 0 }
    let r1 :=
      match searchToks jestPassedPat out with
      | some g => { r with passed := (digitsToNat g : Int) }
      | none => r
    match searchToks spaceFailedPat out with
    | some g => { r1 with failed := (digitsToNat g : Int) }
    | none => r1

/-- The pytest branch of `run_uit` (lines 252-276). -/
def runUitPytest (env : Env) (with_coverage : Bool) : TestTypeResult :=
  let cmd :=
    if with_coverage then ["python", "-m", "pytest", "--cov", "--cov-report=term"]
    else ["python", "-m", "pytest", "-v"]
  match env.procRun cmd with
  | .timeout => { test_type := "UIT", success := false, error := "測試超時 (5分鐘)" }
  | .exc m => { test_type := "UIT", success := false, error := m }
  | .ok rc stdout stderr =>
    let out := (stdout ++ stderr).data
    let r : TestTypeResult := { test_type := "UIT", success := rc == 0 }
    let r1 :=
      match searchToks spacePassedPat out with
      | some g => { r with passed := (digitsToNat g : Int) }
      | none => r
    let r2 :=
      match searchToks spaceFailedPat out with
      | some g => { r1 with failed := (digitsToNat g : Int) }
      | none => r1
    match searchToks pytestTotalPat out with
    | some g =>
      match pyFloatQ g with
      | none => { r2 with success := false, error := floatErrMsg g }
      | some v => { r2 with coverage := v }
    | none => r2

/-- Model of `TestSuiteRunner.run_uit` (lines 122-291). -/
def run_uit (env : Env) (with_coverage : Bool) : TestTypeResult :=
  if env.setup.has_vitest then runUitVitest env with_coverage
  else if env.setup.has_jest then runUitJest env with_coverage
  else if env.setup.has_pytest then runUitPytest env with_coverage
  else
    { test_type := "UIT"
      success := true
      not_configured := true
      error := "未設定單元測試框架" }

/-! ## `run_playwright_tests` and `_parse_playwright_suite` (lines 293-446) -/

/-- Decoding of an api-response attachment body (lines 426-433):
`base64.b64decode(body).decode('utf-8')`, degrading to the raw body on
any decoding exception. -/
def pwDecodeBody (env : Env) (att : PwAttachment) : String :=
  match env.b64DecodeUtf8 att.body with
  | some t => t
  | none => att.body

/-- The attachment loop body of `_parse_playwright_suite` (lines 420-433):
a screenshot attachment with a truthy path overwrites the screenshot, an
api-response attachment with a truthy body overwrites the decoded
response. -/
def pwAttachStep (env : Env) (p : String × String) (att : PwAttachment) :
    String × String :=
  if att.name = "screenshot" ∧ att.path ≠ "" then (att.path, p.2)
  else if att.name = "api-response" ∧ att.body ≠ "" then (p.1, pwDecodeBody env att)
  else p

/-- The per-attempt loop body of `_parse_playwright_suite` (lines
413-433). Status and duration are overwritten by every attempt; `error`
is only overwritten by an attempt that carries a truthy error object, and
attachments only by attempts that carry them. -/
def pwAttemptStep (env : Env) (st : String × ℚ × String × String × String)
    (res : PwAttemptResult) : String × ℚ × String × String × String :=
  let status := res.status
  let dur : ℚ := res.duration / 1000
  let err :=
    match res.error with
    | some e => e.message.take 200
    | none => st.2.2.1
  let sa := res.attachments.foldl (pwAttachStep env) (st.2.2.2.1, st.2.2.2.2)
  (status, dur, err, sa.1, sa.2)

/-- The per-test attempt loop of `_parse_playwright_suite` (lines 404-433):
a left fold of `pwAttemptStep` over the recorded attempts, starting from
the initial values of lines 407-411. -/
def parsePwAttempts (env : Env) (l : List PwAttemptResult) :
    String × ℚ × String × String × String :=
  l.foldl (pwAttemptStep env) ("passed", 0, "", "", "")

mutual

/-- Model of `TestSuiteRunner._parse_playwright_suite` (lines 393-446),
returning the list of `TestCase`s appended for this node. -/
def parsePwSuite (env : Env) (s : PwSuite) (pre : String) : List TestCase :=
  match s with
  | .mk title specs suites =>
    let curPre := if pre ≠ "" then pre ++ " › " ++ title else title
    let specCases := specs.flatMap fun sp =>
      let fullName := if curPre ≠ "" then curPre ++ " › " ++ sp.title else sp.title
      sp.tests.map fun t =>
        let r5 := parsePwAttempts env t.results
        { name := fullName
          status := r5.1
          duration := r5.2.1
          error := r5.2.2.1
          screenshot := r5.2.2.2.1
          api_response := r5.2.2.2.2 }
    specCases ++ parsePwSuites env suites curPre

/-- The recursion of line 445 over the child suites, in order. -/
def parsePwSuites (env : Env) (l : PwSuiteList) (pre : String) : List TestCase :=
  match l with
  | .nil => []
  | .cons s rest => parsePwSuite env s pre ++ parsePwSuites env rest pre

end

/-- Command line built for Playwright (lines 314-323). -/
def pwCmd (specPat testType : String) : List String :=
  ["npx", "playwright", "test", "e2e/" ++ specPat, "--reporter=json",
   "--output=" ++ "test-results/" ++ pyLower testType]

/-- Model of `TestSuiteRunner.run_playwright_tests` (lines 293-391). -/
def run_playwright_tests (env : Env) (specPat testType : String) : TestTypeResult :=
  let r0 : TestTypeResult := { test_type := testType }
  if ¬ env.setup.has_playwright then
    { r0 with success := true, not_configured := true, error := "未安裝 Playwright" }
  else if ¬ env.specFilesFound specPat then
    { r0 with success := true, not_configured := true, error := "未找到 " ++ specPat }
  else
    match env.procRun (pwCmd specPat testType) with
    | .timeout => { r0 with success := false, error := "測試超時" }
    | .exc m => { r0 with success := false, error := m }
    | .ok rc stdout stderr =>
      let output := stdout ++ stderr
      let success := rc == 0
      let r1 :=
        match env.pwJsonLoads stdout with
        | some root =>
          let cases := parsePwSuites env root.suites ""
          { r0 with
            success := success
            test_cases := cases
            passed := (cases.countP (fun tc => tc.status = "passed") : Int)
            failed := (cases.countP (fun tc => tc.status = "failed") : Int)
            skipped := (cases.countP (fun tc => tc.status = "skipped") : Int) }
        | none =>
          let clean := stripAnsiL output.data
          let ra := { r0 with success := success }
          let rb :=
            match searchToks spacePassedPat clean with
            | some g => { ra with passed := (digitsToNat g : Int) }
            | none => ra
          let rc' :=
            match searchToks spaceFailedPat clean with
            | some g => { rb with failed := (digitsToNat g : Int) }
            | none => rb
          let status0 := "passed"
          let status :=
            if hasInfix ("✓").data clean || hasInfix ("passed").data clean then "passed"
            else status0
          let cases := (env.pwCaseMatches (String.mk clean)).map fun g =>
            { name := pyStrip g, status := status : TestCase }
          { rc' with test_cases := cases }
      match searchToks pwDurPat output.data with
      | none => r1
      | some g =>
        match pyFloatQ g with
        | some v => { r1 with duration := v }
        | none => { r1 with success := false, error := floatErrMsg g }

/-- Model of `TestSuiteRunner.run_smoke` (lines 448-450). -/
def run_smoke (env : Env) : TestTypeResult :=
  run_playwright_tests env "smoke.spec.ts" "Smoke"

/-- Model of `TestSuiteRunner.run_e2e` (lines 452-459). -/
def run_e2e (env : Env) : TestTypeResult :=
  let result := run_playwright_tests env "mes-system.spec.ts" "E2E"
  if result.passed == 0 && result.error == "" then
    run_playwright_tests env "*.e2e.spec.ts" "E2E"
  else result

/-- Model of `TestSuiteRunner.run_uat` (lines 461-463). -/
def run_uat (env : Env) : TestTypeResult :=
  run_playwright_tests env "uat.spec.ts" "UAT"

/-! ## `run_all` (lines 465-499) -/

/-- Dispatch of lines 476-485 over the already upper-cased tag; `none`
models the `continue` of line 485. -/
def runForTag (env : Env) (u : String) : Option TestTypeResult :=
  if u = "UIT" then some (run_uit env true)
  else if u = "SMOKE" then some (run_smoke env)
  else if u = "E2E" then some (run_e2e env)
  else if u = "UAT" then some (run_uat env)
  else none

/-- Python dict assignment `d[k] = v` on an insertion-ordered
association list: replace in place, else append. -/
def insertKV (l : List (String × TestTypeResult)) (k : String)
    (v : TestTypeResult) : List (String × TestTypeResult) :=
  match l with
  | [] => [(k, v)]
  | (k0, v0) :: rest =>
    if k0 = k then (k, v) :: rest else (k0, v0) :: insertKV rest k v

/-- Python dict lookup `d.get(k)` / `k in d`. -/
def lookupKV (l : List (String × TestTypeResult)) (k : String) :
    Option TestTypeResult :=
  match l with
  | [] => none
  | (k0, v0) :: rest => if k0 = k then some v0 else lookupKV rest k

/-- Loop body of lines 475-493 for one requested tag. -/
def runAllStep (env : Env) (st : TestSuiteResult) (tag : String) : TestSuiteResult :=
  match runForTag env (pyUpper tag) with
  | none => st
  | some r =>
    { st with
      results := insertKV st.results (pyUpper tag) r
      total_passed := st.total_passed + r.passed
      total_failed := st.total_failed + r.failed
      total_duration := st.total_duration + r.duration
      overall_success := st.overall_success && r.success }

/-- The fresh `TestSuiteResult` of lines 470-473. -/
def initSuite (env : Env) : TestSuiteResult :=
  { project_name := env.projectName, timestamp := env.timestamp }

/-- Model of `TestSuiteRunner.run_all` (lines 465-499). -/
def run_all (env : Env) (test_types : Option (List String)) : TestSuiteResult :=
  let tags := test_types.getD ["UIT", "Smoke", "E2E", "UAT"]
  let st := tags.foldl (runAllStep env) (initSuite env)
  match lookupKV st.results "UIT" with
  | some u => { st with coverage := u.coverage }
  | none => st

/-! ## Spec-side definitions

These definitions follow the wording of the specification (they are the
comparison side of refinement-style claims); everything above is
translated from the source. -/

/-- The four recognised test-type tags of `run_all`'s dispatch. -/
def isKnownType (u : String) : Bool :=
  u = "UIT" || u = "SMOKE" || u = "E2E" || u = "UAT"

/-- Keys present in `results` after processing `tags`, starting from the
keys `acc`: each recognised tag contributes its upper-cased form once. -/
def keysAfter (acc : List String) (tags : List String) : List String :=
  match tags with
  | [] => acc
  | t :: rest =>
    keysAfter
      (if isKnownType (pyUpper t) then
        if pyUpper t ∈ acc then acc else acc ++ [pyUpper t]
      else acc) rest

/-- Keys of `results` determined by the requested tags alone. -/
def requestedKeys (tags : List String) : List String :=
  keysAfter [] tags

/-- Delimiter-joined concatenation of a title chain, an empty running
prefix omitting the leading delimiter (spec, section 4.2 and section 8). -/
def joinTitles (ts : List String) : String :=
  ts.foldl (fun p t => if p = "" then t else p ++ " › " ++ t) ""

mutual

/-- Names the flattener is specified to emit for a suite node, given the
ancestor title chain: for every test of every spec, the join of every
ancestor suite title plus the leaf spec title, in tree order. -/
def specNames (s : PwSuite) (anc : List String) : List String :=
  match s with
  | .mk title specs suites =>
    (specs.flatMap fun sp => sp.tests.map fun _ => joinTitles (anc ++ [title, sp.title]))
      ++ specNamesList suites (anc ++ [title])

/-- Specified names for a list of sibling suites, in order. -/
def specNamesList (l : PwSuiteList) (anc : List String) : List String :=
  match l with
  | .nil => []
  | .cons s rest => specNames s anc ++ specNamesList rest anc

end

/-- Status of the last recorded attempt (spec: only the final attempt's
status is authoritative). -/
def lastAttemptStatus (l : List PwAttemptResult) : String :=
  (l.getLast?.map PwAttemptResult.status).getD "passed"

/-- Duration (ms converted to s) of the last recorded attempt. -/
def lastAttemptDur (l : List PwAttemptResult) : ℚ :=
  (l.getLast?.map (fun a => a.duration / 1000)).getD 0

/-- Truncated message of the last attempt that carries an error. -/
def lastErrMsg (l : List PwAttemptResult) : String :=
  ((l.filterMap PwAttemptResult.error).getLast?.map (fun e => e.message.take 200)).getD ""

/-- Screenshot path of the last screenshot attachment over all attempts. -/
def lastScreenshot (l : List PwAttemptResult) : String :=
  ((l.flatMap fun a =>
      a.attachments.filter fun att => att.name = "screenshot" ∧ att.path ≠ "").getLast?.map
    PwAttachment.path).getD ""

/-- Decoded body of the last api-response attachment over all attempts. -/
def lastApi (env : Env) (l : List PwAttemptResult) : String :=
  ((l.flatMap fun a =>
      a.attachments.filter fun att => att.name = "api-response" ∧ att.body ≠ "").getLast?.map
    (pwDecodeBody env)).getD ""

/-! ## Concrete environments used as witnesses and counterexamples -/

/-- An environment with no frameworks configured and inert oracles. -/
def baseEnv : Env where
  projectName := "proj"
  timestamp := "2026-10-12 00:00:00"
  setup := {}
  specFilesFound := fun _ => false
  procRun := fun _ => .exc "unused"
  vitestJsonLoads := fun _ => none
  pwJsonLoads := fun _ => none
  uitSpecFileMatches := fun _ => []
  pwCaseMatches := fun _ => []
  b64DecodeUtf8 := fun _ => none

/-- Scenario D input: vitest exits 0, stdout is only `3 passed (43ms)`. -/
def envD : Env :=
  { baseEnv with
    setup := { has_vitest := true }
    procRun := fun c =>
      if c = vitestCmd true then .ok 0 "3 passed (43ms)" "" else .exc "unused" }

/-- Scenario A stdout: a decodable vitest JSON payload reporting
`numPassedTests = 12`, `numFailedTests = 1`. -/
def jsonA : String :=
  "\x7b\"numPassedTests\": 12, \"numFailedTests\": 1, \"testResults\": []\x7d"

/-- The decoded form of `jsonA`. -/
def payloadA : VitestPayload :=
  { numPassedTests := 12, numFailedTests := 1 }

/-- Scenario A environment, with exit code `rc` for the vitest run. -/
def envA (rc : Int) : Env :=
  { baseEnv with
    setup := { has_vitest := true }
    procRun := fun c => if c = vitestCmd true then .ok rc jsonA "" else .exc "unused"
    vitestJsonLoads := fun s => if s = jsonA then some payloadA else none }

/-- A Playwright report whose tree is suite `Checkout` containing spec
`adds item to cart` with a single passing 1200 ms attempt. -/
def rootB : PwRoot :=
  { suites := .cons (.mk "Checkout"
      [{ title := "adds item to cart"
         tests := [{ results := [{ status := "passed", duration := 1200 }] }] }] .nil) .nil }

/-- Builder for Playwright environments: the smoke run exits 0 and its
stdout decodes to the given report. -/
def pwEnv (root : PwRoot) : Env :=
  { baseEnv with
    setup := { has_playwright := true }
    specFilesFound := fun p => p = "smoke.spec.ts"
    procRun := fun c =>
      if c = pwCmd "smoke.spec.ts" "Smoke" then .ok 0 "PWJSON" "" else .exc "unused"
    pwJsonLoads := fun s => if s = "PWJSON" then some root else none }

/-- Scenario B environment. -/
def envB : Env := pwEnv rootB

/-- A report with one test whose only attempt has status `timedOut`. -/
def rootTimedOut : PwRoot :=
  { suites := .cons (.mk "S"
      [{ title := "t"
         tests := [{ results := [{ status := "timedOut", duration := 500 }] }] }] .nil) .nil }

/-- Environment for the C2 counterexample. -/
def envTimedOut : Env := pwEnv rootTimedOut

/-- First attempt of the C7 counterexample: failed, with an error message
and a screenshot attachment. -/
def attemptFailed : PwAttemptResult :=
  { status := "failed"
    duration := 1000
    error := some { message := "boom" }
    attachments := [{ name := "screenshot", path := "s.png" }] }

/-- Second (last) attempt of the C7 counterexample: passed, no error, no
attachments. -/
def attemptPassed : PwAttemptResult :=
  { status := "passed", duration := 2000 }

/-- A report whose single test carries the two attempts above. -/
def rootRetry : PwRoot :=
  { suites := .cons (.mk "S"
      [{ title := "t", tests := [{ results := [attemptFailed, attemptPassed] }] }] .nil) .nil }

/-- Environment for the C7 counterexample. -/
def envRetry : Env := pwEnv rootRetry

/-- Scenario E environment: the vitest invocation times out, the smoke
invocation succeeds with one passing test. -/
def envE : Env :=
  { pwEnv rootB with
    setup := { has_vitest := true, has_playwright := true }
    procRun := fun c =>
      if c = vitestCmd true then .timeout
      else if c = pwCmd "smoke.spec.ts" "Smoke" then .ok 0 "PWJSON" ""
      else .exc "unused" }

/-! ## Helper lemmas: association-list operations -/

theorem mem_insertKV_self (l : List (String × TestTypeResult)) (k : String)
    (v : TestTypeResult) : (k, v) ∈ insertKV l k v := by
  induction l with
  | nil => simp [insertKV]
  | cons hd tl ih =>
    rcases hd with ⟨k0, v0⟩
    unfold insertKV
    by_cases h : k0 = k <;> simp [h, ih]

theorem mem_of_mem_insertKV {l : List (String × TestTypeResult)} {k : String}
    {v kv : _} (h : kv ∈ insertKV l k v) : kv = (k, v) ∨ kv ∈ l := by
  induction l with
  | nil => simpa [insertKV] using h
  | cons hd tl ih =>
    rcases hd with ⟨k0, v0⟩
    unfold insertKV at h
    by_cases hk : k0 = k
    · simp only [if_pos hk] at h
      rcases List.mem_cons.mp h with h | h
      · exact .inl h
      · exact .inr (List.mem_cons_of_mem _ h)
    · simp only [if_neg hk] at h
      rcases List.mem_cons.mp h with h | h
      · exact .inr (h ▸ List.mem_cons_self _ _)
      · rcases ih h with h2 | h2
        · exact .inl h2
        · exact .inr (List.mem_cons_of_mem _ h2)

theorem mem_insertKV_of_ne {l : List (String × TestTypeResult)} {k : String}
    {v kv : _} (h : kv ∈ l) (hne : kv.1 ≠ k) : kv ∈ insertKV l k v := by
  induction l with
  | nil => cases h
  | cons hd tl ih =>
    rcases hd with ⟨k0, v0⟩
    unfold insertKV
    by_cases hk : k0 = k
    · simp only [if_pos hk]
      rcases List.mem_cons.mp h with h | h
      · exact absurd (show kv.1 = k by rw [h]; exact hk) hne
      · exact List.mem_cons_of_mem _ h
    · simp only [if_neg hk]
      rcases List.mem_cons.mp h with h | h
      · exact h ▸ List.mem_cons_self _ _
      · exact List.mem_cons_of_mem _ (ih h)

theorem lookup_insertKV_self (l : List (String × TestTypeResult)) (k : String)
    (v : TestTypeResult) : lookupKV (insertKV l k v) k = some v := by
  induction l with
  | nil => simp [insertKV, lookupKV]
  | cons hd tl ih =>
    rcases hd with ⟨k0, v0⟩
    unfold insertKV
    by_cases h : k0 = k <;> simp [h, lookupKV, ih]

theorem lookup_insertKV_ne (l : List (String × TestTypeResult)) {k k' : String}
    (v : TestTypeResult) (h : k' ≠ k) :
    lookupKV (insertKV l k v) k' = lookupKV l k' := by
  induction l with
  | nil => simp [insertKV, lookupKV, Ne.symm h]
  | cons hd tl ih =>
    rcases hd with ⟨k0, v0⟩
    unfold insertKV
    by_cases hk : k0 = k
    · subst hk
      simp only [if_pos rfl, lookupKV]
      simp [Ne.symm h]
    · simp only [if_neg hk, lookupKV]
      by_cases h0 : k0 = k' <;> simp [h0, ih]

theorem keys_insertKV (l : List (String × TestTypeResult)) (k : String)
    (v : TestTypeResult) :
    (insertKV l k v).map Prod.fst =
      if k ∈ l.map Prod.fst then l.map Prod.fst else l.map Prod.fst ++ [k] := by
  induction l with
  | nil => simp [insertKV]
  | cons hd tl ih =>
    rcases hd with ⟨k0, v0⟩
    unfold insertKV
    by_cases h : k0 = k
    · simp [h]
    · simp only [if_neg h, List.map_cons, ih]
      by_cases h2 : k ∈ tl.map Prod.fst <;>
        simp [h2, Ne.symm h]

theorem insertKV_of_not_mem {l : List (String × TestTypeResult)} {k : String}
    (v : TestTypeResult) (h : k ∉ l.map Prod.fst) :
    insertKV l k v = l ++ [(k, v)] := by
  induction l with
  | nil => simp [insertKV]
  | cons hd tl ih =>
    rcases hd with ⟨k0, v0⟩
    simp only [List.map_cons, List.mem_cons] at h
    push_neg at h
    unfold insertKV
    simp only [if_neg (Ne.symm h.1)]
    simp [ih h.2]

theorem lookup_isSome_of_mem {l : List (String × TestTypeResult)} {k : String}
    {v : TestTypeResult} (h : (k, v) ∈ l) : (lookupKV l k).isSome = true := by
  induction l with
  | nil => cases h
  | cons hd tl ih =>
    rcases hd with ⟨k0, v0⟩
    unfold lookupKV
    by_cases hk : k0 = k
    · simp [hk]
    · rcases List.mem_cons.mp h with h | h
      · exact absurd (congrArg Prod.fst h).symm hk
      · simp [hk, ih h]

/-! ## Helper lemmas: field preservation in the `run_uit` stages -/

theorem uitOverrides_not_configured (r : TestTypeResult) (clean : List Char) :
    (uitOverrides r clean).not_configured = r.not_configured := by
  unfold uitOverrides
  split
  · split <;> rfl
  · split
    · split <;> rfl
    · split <;> rfl

theorem uitOverrides_success (r : TestTypeResult) (clean : List Char) :
    (uitOverrides r clean).success = r.success := by
  unfold uitOverrides
  split
  · split <;> rfl
  · split
    · split <;> rfl
    · split <;> rfl

theorem uitDurStep_not_configured (r : TestTypeResult) (clean : List Char) :
    (uitDurStep r clean).not_configured = r.not_configured := by
  unfold uitDurStep
  split
  · split <;> rfl
  · split
    · split <;> rfl
    · rfl

theorem uitDurStep_passed (r : TestTypeResult) (clean : List Char) :
    (uitDurStep r clean).passed = r.passed := by
  unfold uitDurStep
  split
  · split <;> rfl
  · split
    · split <;> rfl
    · rfl

theorem uitDurStep_failed (r : TestTypeResult) (clean : List Char) :
    (uitDurStep r clean).failed = r.failed := by
  unfold uitDurStep
  split
  · split <;> rfl
  · split
    · split <;> rfl
    · rfl

theorem uitDurStep_success_false (r : TestTypeResult) (clean : List Char)
    (h : r.success = false) : (uitDurStep r clean).success = false := by
  unfold uitDurStep
  split
  · split
    · rfl
    · simpa using h
  · split
    · split
      · rfl
      · simpa using h
    · simpa using h

theorem uitCovDur_not_configured (r : TestTypeResult) (clean : List Char) :
    (uitCovDur r clean).not_configured = r.not_configured := by
  unfold uitCovDur
  split
  · split
    · rfl
    · rw [uitDurStep_not_configured]
  · rw [uitDurStep_not_configured]

theorem uitCovDur_passed (r : TestTypeResult) (clean : List Char) :
    (uitCovDur r clean).passed = r.passed := by
  unfold uitCovDur
  split
  · split
    · rfl
    · rw [uitDurStep_passed]
  · rw [uitDurStep_passed]

theorem uitCovDur_failed (r : TestTypeResult) (clean : List Char) :
    (uitCovDur r clean).failed = r.failed := by
  unfold uitCovDur
  split
  · split
    · rfl
    · rw [uitDurStep_failed]
  · rw [uitDurStep_failed]

theorem uitCovDur_success_false (r : TestTypeResult) (clean : List Char)
    (h : r.success = false) : (uitCovDur r clean).success = false := by
  unfold uitCovDur
  split
  · split
    · rfl
    · exact uitDurStep_success_false _ _ (by simpa using h)
  · exact uitDurStep_success_false _ _ h

theorem uitJsonStage_inl_not_configured {env : Env} {r0 r : TestTypeResult}
    {so : String} {cl : List Char} (h : uitJsonStage env r0 so cl = .inl r) :
    r.not_configured = r0.not_configured := by
  unfold uitJsonStage at h
  split at h
  · cases h; rfl
  · split at h
    · cases h; rfl
    · split at h
      · split at h
        · cases h
        · cases h; rfl
      · cases h; rfl

theorem uitJsonStage_inr_not_configured {env : Env} {r0 r : TestTypeResult}
    {so m : _} {cl : List Char} (h : uitJsonStage env r0 so cl = .inr (r, m)) :
    r.not_configured = r0.not_configured := by
  unfold uitJsonStage at h
  split at h
  · cases h
  · split at h
    · cases h
    · split at h
      · split at h
        · cases h; rfl
        · cases h
      · cases h

theorem runUitVitest_not_configured (env : Env) (wc : Bool) :
    (runUitVitest env wc).not_configured = false := by
  unfold runUitVitest
  rcases hp : env.procRun (vitestCmd wc) with ⟨rc, stdout, stderr⟩ | _ | m <;>
    simp only [hp]
  · rcases hs : uitJsonStage env { test_type := "UIT", success := rc == 0 } stdout
        (stripAnsiL (stdout ++ stderr).data) with r | ⟨r, m⟩ <;> simp only [hs]
    · rw [uitCovDur_not_configured, uitOverrides_not_configured]
      exact uitJsonStage_inl_not_configured hs
    · exact uitJsonStage_inr_not_configured hs

theorem runUitJest_not_configured (env : Env) (wc : Bool) :
    (runUitJest env wc).not_configured = false := by
  simp only [runUitJest]
  rcases hp : env.procRun (if wc then ["npx", "jest", "--coverage"] else ["npx", "jest"])
      with ⟨rc, stdout, stderr⟩ | _ | m <;> simp only [hp]
  · split
    · split <;> rfl
    · split <;> rfl

theorem runUitPytest_not_configured (env : Env) (wc : Bool) :
    (runUitPytest env wc).not_configured = false := by
  simp only [runUitPytest]
  rcases hp : env.procRun (if wc then ["python", "-m", "pytest", "--cov", "--cov-report=term"]
        else ["python", "-m", "pytest", "-v"])
      with ⟨rc, stdout, stderr⟩ | _ | m <;> simp only [hp]
  · split
    · split
      · split <;> split <;> rfl
      · split <;> split <;> rfl
    · split <;> split <;> rfl

/-- `run_uit` satisfies the not-configured invariant: a result flagged
not-configured is successful with all counts zero. -/
theorem run_uit_not_configured_inv (env : Env) (wc : Bool)
    (h : (run_uit env wc).not_configured = true) :
    (run_uit env wc).success = true ∧ (run_uit env wc).passed = 0 ∧
      (run_uit env wc).failed = 0 ∧ (run_uit env wc).skipped = 0 := by
  revert h
  unfold run_uit
  by_cases h1 : env.setup.has_vitest = true
  · rw [if_pos h1]
    intro h
    rw [runUitVitest_not_configured] at h
    cases h
  · rw [if_neg h1]
    by_cases h2 : env.setup.has_jest = true
    · rw [if_pos h2]
      intro h
      rw [runUitJest_not_configured] at h
      cases h
    · rw [if_neg h2]
      by_cases h3 : env.setup.has_pytest = true
      · rw [if_pos h3]
        intro h
        rw [runUitPytest_not_configured] at h
        cases h
      · rw [if_neg h3]
        intro _
        exact ⟨rfl, rfl, rfl, rfl⟩

/-! ## Helper lemmas: `run_playwright_tests`, `runForTag` and `run_all` -/

theorem run_playwright_core_not_configured (env : Env) (p t : String)
    (h1 : env.setup.has_playwright = true) (h2 : env.specFilesFound p = true) :
    (run_playwright_tests env p t).not_configured = false := by
  unfold run_playwright_tests
  rw [if_neg (by simp [h1]), if_neg (by simp [h2])]
  rcases hp : env.procRun (pwCmd p t) with ⟨rc, stdout, stderr⟩ | _ | m <;>
    simp only [hp]
  · rcases hj : env.pwJsonLoads stdout with _ | root <;> simp only [hj]
    · split
      · split
        · split <;> rfl
        · split <;> rfl
      · split
        · split
          · split <;> rfl
          · split <;> rfl
        · split
          · split <;> rfl
          · split <;> rfl
    · split
      · rfl
      · split <;> rfl

theorem run_playwright_not_configured_inv (env : Env) (p t : String)
    (h : (run_playwright_tests env p t).not_configured = true) :
    (run_playwright_tests env p t).success = true ∧
      (run_playwright_tests env p t).passed = 0 ∧
      (run_playwright_tests env p t).failed = 0 ∧
      (run_playwright_tests env p t).skipped = 0 := by
  by_cases h1 : env.setup.has_playwright = true
  · by_cases h2 : env.specFilesFound p = true
    · rw [run_playwright_core_not_configured env p t h1 h2] at h
      cases h
    · unfold run_playwright_tests
      rw [if_neg (by simp [h1]), if_pos (by simp [h2])]
      exact ⟨rfl, rfl, rfl, rfl⟩
  · unfold run_playwright_tests
    rw [if_pos (by simp [h1])]
    exact ⟨rfl, rfl, rfl, rfl⟩

theorem run_e2e_not_configured_inv (env : Env)
    (h : (run_e2e env).not_configured = true) :
    (run_e2e env).success = true ∧ (run_e2e env).passed = 0 ∧
      (run_e2e env).failed = 0 ∧ (run_e2e env).skipped = 0 := by
  revert h
  simp only [run_e2e]
  split
  · exact run_playwright_not_configured_inv env _ _
  · exact run_playwright_not_configured_inv env _ _

/-- Any result the dispatcher can produce satisfies the not-configured
invariant. -/
theorem runForTag_not_configured_inv {env : Env} {u : String} {r : TestTypeResult}
    (hr : runForTag env u = some r) (h : r.not_configured = true) :
    r.success = true ∧ r.passed = 0 ∧ r.failed = 0 ∧ r.skipped = 0 := by
  unfold runForTag at hr
  split_ifs at hr
  · injection hr with hr
    subst hr
    exact run_uit_not_configured_inv env true h
  · injection hr with hr
    subst hr
    exact run_playwright_not_configured_inv env _ _ h
  · injection hr with hr
    subst hr
    exact run_e2e_not_configured_inv env h
  · injection hr with hr
    subst hr
    exact run_playwright_not_configured_inv env _ _ h

/-- Results of the dispatcher that are flagged not-configured are
successful. -/
theorem runForTag_nc_success {env : Env} {u : String} {r : TestTypeResult}
    (hr : runForTag env u = some r) (h : r.not_configured = true) :
    r.success = true :=
  (runForTag_not_configured_inv hr h).1

/-- The final coverage assignment of `run_all` does not change `results`,
the totals or `overall_success`. -/
theorem run_all_eq_foldl (env : Env) (o : Option (List String)) :
    (run_all env o).results =
        ((o.getD ["UIT", "Smoke", "E2E", "UAT"]).foldl (runAllStep env)
          (initSuite env)).results ∧
      (run_all env o).total_passed =
        ((o.getD ["UIT", "Smoke", "E2E", "UAT"]).foldl (runAllStep env)
          (initSuite env)).total_passed ∧
      (run_all env o).total_failed =
        ((o.getD ["UIT", "Smoke", "E2E", "UAT"]).foldl (runAllStep env)
          (initSuite env)).total_failed ∧
      (run_all env o).total_duration =
        ((o.getD ["UIT", "Smoke", "E2E", "UAT"]).foldl (runAllStep env)
          (initSuite env)).total_duration ∧
      (run_all env o).overall_success =
        ((o.getD ["UIT", "Smoke", "E2E", "UAT"]).foldl (runAllStep env)
          (initSuite env)).overall_success := by
  simp only [run_all]
  split <;> exact ⟨rfl, rfl, rfl, rfl, rfl⟩

/-- The two possible effects of one orchestration step: skip, or record
the dispatcher's result under the upper-cased tag. -/
theorem runAllStep_cases (env : Env) (st : TestSuiteResult) (t : String) :
    (runForTag env (pyUpper t) = none ∧ runAllStep env st t = st) ∨
    ∃ r, runForTag env (pyUpper t) = some r ∧
      runAllStep env st t =
        { st with
          results := insertKV st.results (pyUpper t) r
          total_passed := st.total_passed + r.passed
          total_failed := st.total_failed + r.failed
          total_duration := st.total_duration + r.duration
          overall_success := st.overall_success && r.success } := by
  unfold runAllStep
  rcases hr : runForTag env (pyUpper t) with _ | r
  · exact .inl ⟨rfl, rfl⟩
  · exact .inr ⟨r, rfl, rfl⟩

/-- Every entry recorded by the fold is the dispatcher's value for its
key (determinism of the environment). -/
theorem foldl_mem_runForTag (env : Env) (tags : List String)
    (st : TestSuiteResult)
    (hst : ∀ kv ∈ st.results, runForTag env kv.1 = some kv.2) :
    ∀ kv ∈ (tags.foldl (runAllStep env) st).results,
      runForTag env kv.1 = some kv.2 := by
  induction tags generalizing st with
  | nil => exact hst
  | cons t rest ih =>
    simp only [List.foldl_cons]
    apply ih
    rcases runAllStep_cases env st t with ⟨_, heq⟩ | ⟨r, hr, heq⟩
    · rw [heq]
      exact hst
    · rw [heq]
      intro kv hkv
      rcases mem_of_mem_insertKV hkv with h | h
      · rw [h]
        exact hr
      · exact hst kv h

/-- If the fold reports overall failure, some recorded entry failed. -/
theorem foldl_overall_false (env : Env) (tags : List String)
    (st : TestSuiteResult)
    (hst : ∀ kv ∈ st.results, runForTag env kv.1 = some kv.2)
    (hbase : st.overall_success = false → ∃ kv ∈ st.results, kv.2.success = false)
    (h : (tags.foldl (runAllStep env) st).overall_success = false) :
    ∃ kv ∈ (tags.foldl (runAllStep env) st).results, kv.2.success = false := by
  induction tags generalizing st with
  | nil => exact hbase h
  | cons t rest ih =>
    simp only [List.foldl_cons] at h ⊢
    rcases runAllStep_cases env st t with ⟨_, heq⟩ | ⟨r, hr, heq⟩
    · rw [heq] at h ⊢
      exact ih st hst hbase h
    · rw [heq] at h ⊢
      refine ih _ ?_ ?_ h
      · intro kv hkv
        simp only at hkv
        rcases mem_of_mem_insertKV hkv with hh | hh
        · rw [hh]
          exact hr
        · exact hst kv hh
      · intro hover
        simp only at hover ⊢
        by_cases hrs : r.success = false
        · exact ⟨(pyUpper t, r), mem_insertKV_self _ _ _, hrs⟩
        · rw [Bool.not_eq_false] at hrs
          rw [hrs, Bool.and_true] at hover
          rcases hbase hover with ⟨kv, hkv, hkvs⟩
          by_cases hkey : kv.1 = pyUpper t
          · have h1 : runForTag env (pyUpper t) = some kv.2 := by
              rw [← hkey]
              exact hst kv hkv
            rw [hr] at h1
            injection h1 with h1
            rw [h1] at hrs
            rw [hkvs] at hrs
            cases hrs
          · exact ⟨kv, mem_insertKV_of_ne hkv hkey, hkvs⟩

/-! ## Claim theorems -/

/-- C1: for every `TestTypeResult` produced by `run_uit`,
`run_playwright_tests` or any `run_all` path, `not_configured = true`
implies `success = true` and `passed = failed = skipped = 0`, and such an
entry never causes the suite-level `overall_success` to become false:
whenever `overall_success` is false, some recorded entry failed with
`not_configured = false`. -/
theorem c1_not_configured_never_fails :
    (∀ (env : Env) (wc : Bool), (run_uit env wc).not_configured = true →
      (run_uit env wc).success = true ∧ (run_uit env wc).passed = 0 ∧
        (run_uit env wc).failed = 0 ∧ (run_uit env wc).skipped = 0) ∧
    (∀ (env : Env) (p t : String),
      (run_playwright_tests env p t).not_configured = true →
      (run_playwright_tests env p t).success = true ∧
        (run_playwright_tests env p t).passed = 0 ∧
        (run_playwright_tests env p t).failed = 0 ∧
        (run_playwright_tests env p t).skipped = 0) ∧
    (∀ (env : Env) (tags : List String),
      (run_all env (some tags)).overall_success = false →
      ∃ kv ∈ (run_all env (some tags)).results,
        kv.2.success = false ∧ kv.2.not_configured = false) := by
  refine ⟨run_uit_not_configured_inv, run_playwright_not_configured_inv, ?_⟩
  intro env tags h
  have heq := run_all_eq_foldl env (some tags)
  rw [heq.2.2.2.2] at h
  have hst : ∀ kv ∈ (initSuite env).results, runForTag env kv.1 = some kv.2 := by
    intro kv hkv
    simp [initSuite] at hkv
  have hbase : (initSuite env).overall_success = false →
      ∃ kv ∈ (initSuite env).results, kv.2.success = false := by
    intro hov
    simp [initSuite] at hov
  have hmem := foldl_mem_runForTag env tags _ hst
  rcases foldl_overall_false env tags _ hst hbase h with ⟨kv, hkv, hs⟩
  refine ⟨kv, ?_, hs, ?_⟩
  · rw [heq.1]
    exact hkv
  · have hrf := hmem kv hkv
    by_cases hnc : kv.2.not_configured = true
    · have hsucc := runForTag_nc_success hrf hnc
      rw [hsucc] at hs
      cases hs
    · simpa using hnc

/-- Witness for C1: the not-configured branch of `run_uit` in an
environment with no framework, and the overall-failure direction in the
Scenario E environment. -/
theorem c1_witness :
    ((run_uit baseEnv true).success = true ∧ (run_uit baseEnv true).passed = 0 ∧
      (run_uit baseEnv true).failed = 0 ∧ (run_uit baseEnv true).skipped = 0) ∧
    (∃ kv ∈ (run_all envE (some ["UIT", "Smoke"])).results,
      kv.2.success = false ∧ kv.2.not_configured = false) :=
  ⟨c1_not_configured_never_fails.1 baseEnv true (by rfl),
   c1_not_configured_never_fails.2.2 envE ["UIT", "Smoke"] (by rfl)⟩

/-! ## Helper lemmas: keys of `results` -/

theorem runForTag_none_iff (env : Env) (u : String) :
    runForTag env u = none ↔ isKnownType u = false := by
  unfold runForTag isKnownType
  split_ifs <;> simp_all

theorem foldl_keys (env : Env) (tags : List String) (st : TestSuiteResult) :
    ((tags.foldl (runAllStep env) st).results.map Prod.fst) =
      keysAfter (st.results.map Prod.fst) tags := by
  induction tags generalizing st with
  | nil => rfl
  | cons t rest ih =>
    simp only [List.foldl_cons, keysAfter]
    rcases runAllStep_cases env st t with ⟨hr, heq⟩ | ⟨r, hr, heq⟩
    · rw [heq, ih st]
      rw [(runForTag_none_iff env _).mp hr]
      simp

    · have hk : isKnownType (pyUpper t) = true := by
        rcases hik : isKnownType (pyUpper t)
        · rw [(runForTag_none_iff env _).mpr hik] at hr
          cases hr
        · rfl
      rw [heq, ih]
      simp only [keys_insertKV, hk, if_true]

theorem run_all_keys (env : Env) (tags : List String) :
    (run_all env (some tags)).results.map Prod.fst = requestedKeys tags := by
  rw [(run_all_eq_foldl env (some tags)).1]
  have h := foldl_keys env tags (initSuite env)
  simpa [initSuite, requestedKeys] using h

/-- C3 (amended): the set and order of keys recorded in `results` depend
only on the requested tags, never on any run's outcome — so a timeout in
one type cannot prevent later types from being recorded; in the Scenario
E environment (`UIT` times out, `Smoke` succeeds) both entries are
present, the `UIT` entry has `success = false` with the timeout
diagnostic `"測試超時 (5分鐘)"` as its `error` (not the literal string
`"timeout"`), it is not retried, the `SMOKE` entry has `success = true`,
and `overall_success = false`. -/
theorem c3_timeout_isolation :
    (∀ (env : Env) (tags : List String),
      (run_all env (some tags)).results.map Prod.fst = requestedKeys tags) ∧
    (run_all envE (some ["UIT", "Smoke"])).results.map Prod.fst = ["UIT", "SMOKE"] ∧
    lookupKV (run_all envE (some ["UIT", "Smoke"])).results "UIT" =
      some { test_type := "UIT", success := false, error := "測試超時 (5分鐘)" } ∧
    (lookupKV (run_all envE (some ["UIT", "Smoke"])).results "SMOKE").map
      TestTypeResult.success = some true ∧
    (run_all envE (some ["UIT", "Smoke"])).overall_success = false :=
  ⟨run_all_keys, by rfl, by rfl, by rfl, by rfl⟩

/-- Counterexample for C3 as frozen: at the Scenario E input the `UIT`
entry's `error` is the diagnostic `"測試超時 (5分鐘)"`, not `"timeout"`. -/
theorem c3_counterexample :
    (lookupKV (run_all envE (some ["UIT", "Smoke"])).results "UIT").map
      TestTypeResult.error = some "測試超時 (5分鐘)" ∧
    (some "測試超時 (5分鐘)" : Option String) ≠ some "timeout" :=
  ⟨by rfl, by decide⟩

/-! ## Helper lemmas: skipping unrecognised tags, key presence -/

theorem runAllStep_skip {env : Env} {st : TestSuiteResult} {t : String}
    (h : isKnownType (pyUpper t) = false) : runAllStep env st t = st := by
  rcases runAllStep_cases env st t with ⟨_, heq⟩ | ⟨r, hr, heq⟩
  · exact heq
  · rw [(runForTag_none_iff env _).mpr h] at hr
    cases hr

theorem foldl_filter_known (env : Env) (tags : List String) (st : TestSuiteResult) :
    tags.foldl (runAllStep env) st =
      (tags.filter fun t => isKnownType (pyUpper t)).foldl (runAllStep env) st := by
  induction tags generalizing st with
  | nil => rfl
  | cons t rest ih =>
    simp only [List.foldl_cons, List.filter_cons]
    rcases hik : isKnownType (pyUpper t)
    · rw [runAllStep_skip hik]
      simp only [Bool.false_eq_true, if_false]
      exact ih st
    · simp only [if_true, List.foldl_cons]
      exact ih _

theorem run_all_filter (env : Env) (tags : List String) :
    run_all env (some tags) =
      run_all env (some (tags.filter fun t => isKnownType (pyUpper t))) := by
  simp only [run_all, Option.getD_some]
  rw [foldl_filter_known]

theorem foldl_preserves_key (env : Env) (tags : List String)
    (st : TestSuiteResult) (k : String)
    (h : (lookupKV st.results k).isSome = true) :
    (lookupKV (tags.foldl (runAllStep env) st).results k).isSome = true := by
  induction tags generalizing st with
  | nil => exact h
  | cons t rest ih =>
    simp only [List.foldl_cons]
    apply ih
    rcases runAllStep_cases env st t with ⟨_, heq⟩ | ⟨r, hr, heq⟩
    · rw [heq]
      exact h
    · rw [heq]
      simp only
      by_cases hkey : k = pyUpper t
      · subst hkey
        rw [lookup_insertKV_self]
        rfl
      · rw [lookup_insertKV_ne _ _ hkey]
        exact h

theorem foldl_mem_key (env : Env) (tags : List String) (st : TestSuiteResult)
    (t : String) (ht : t ∈ tags) (hk : isKnownType (pyUpper t) = true) :
    (lookupKV ((tags.foldl (runAllStep env) st).results) (pyUpper t)).isSome = true := by
  induction tags generalizing st with
  | nil => cases ht
  | cons t2 rest ih =>
    simp only [List.foldl_cons]
    rcases List.mem_cons.mp ht with he | he
    · subst he
      rcases hr : runForTag env (pyUpper t) with _ | r
      · rw [(runForTag_none_iff env _).mp hr] at hk
        cases hk
      · rcases runAllStep_cases env st t with ⟨hr2, _⟩ | ⟨r2, hr2, heq⟩
        · rw [hr2] at hr
          cases hr
        · apply foldl_preserves_key
          rw [heq]
          simp only
          rw [lookup_insertKV_self]
          rfl
    · exact ih (runAllStep env st t2) he

/-- C9: `run_all` records each produced result under the upper-cased form
of the requested tag (requesting `"Smoke"` yields the key `"SMOKE"`), and
any tag whose upper-cased form is not one of `UIT`, `SMOKE`, `E2E`, `UAT`
is silently skipped: removing such tags leaves the whole result (entries,
totals, `overall_success`) unchanged, so they add no entry and affect
nothing. -/
theorem c9_uppercase_keys_and_skip :
    (∀ (env : Env) (tags : List String),
      run_all env (some tags) =
        run_all env (some (tags.filter fun t => isKnownType (pyUpper t)))) ∧
    (∀ (env : Env) (tags : List String) (t : String), t ∈ tags →
      isKnownType (pyUpper t) = true →
      (lookupKV (run_all env (some tags)).results (pyUpper t)).isSome = true) ∧
    (∀ env : Env, (run_all env (some ["Smoke"])).results.map Prod.fst = ["SMOKE"]) := by
  refine ⟨run_all_filter, ?_, fun env => rfl⟩
  intro env tags t ht hk
  have heq := (run_all_eq_foldl env (some tags)).1
  rw [heq]
  exact foldl_mem_key env tags (initSuite env) t ht hk

/-- Witness for C9: requesting `["UIT", "Smoke", "Perf"]` in the Scenario
E environment records an entry under `"SMOKE"`. -/
theorem c9_witness :
    (lookupKV (run_all envE (some ["UIT", "Smoke", "Perf"])).results "SMOKE").isSome
      = true := by
  have h := c9_uppercase_keys_and_skip.2.1 envE ["UIT", "Smoke", "Perf"] "Smoke"
    (by decide) (by rfl)
  exact h

/-! ## Helper lemmas: totals as sums over `results` -/

theorem foldl_coverage (env : Env) (tags : List String) (st : TestSuiteResult) :
    (tags.foldl (runAllStep env) st).coverage = st.coverage := by
  induction tags generalizing st with
  | nil => rfl
  | cons t rest ih =>
    simp only [List.foldl_cons]
    rcases runAllStep_cases env st t with ⟨_, heq⟩ | ⟨r, hr, heq⟩ <;>
      rw [heq, ih]

theorem foldl_totals (env : Env) (tags : List String) (st : TestSuiteResult)
    (hnd : (tags.map pyUpper).Nodup)
    (hfresh : ∀ t ∈ tags, pyUpper t ∉ st.results.map Prod.fst)
    (h1 : st.total_passed = (st.results.map fun kv => kv.2.passed).sum)
    (h2 : st.total_failed = (st.results.map fun kv => kv.2.failed).sum)
    (h3 : st.total_duration = (st.results.map fun kv => kv.2.duration).sum) :
    (tags.foldl (runAllStep env) st).total_passed =
        ((tags.foldl (runAllStep env) st).results.map fun kv => kv.2.passed).sum ∧
      (tags.foldl (runAllStep env) st).total_failed =
        ((tags.foldl (runAllStep env) st).results.map fun kv => kv.2.failed).sum ∧
      (tags.foldl (runAllStep env) st).total_duration =
        ((tags.foldl (runAllStep env) st).results.map fun kv => kv.2.duration).sum := by
  induction tags generalizing st with
  | nil => exact ⟨h1, h2, h3⟩
  | cons t rest ih =>
    simp only [List.map_cons, List.nodup_cons] at hnd
    simp only [List.foldl_cons]
    rcases runAllStep_cases env st t with ⟨_, heq⟩ | ⟨r, hr, heq⟩
    · rw [heq]
      exact ih st hnd.2 (fun t' ht' => hfresh t' (List.mem_cons_of_mem _ ht')) h1 h2 h3
    · rw [heq]
      have hins := insertKV_of_not_mem r (hfresh t (List.mem_cons_self _ _))
      apply ih
      · exact hnd.2
      · intro t' ht'
        simp only [hins, List.map_append, List.mem_append]
        push_neg
        refine ⟨hfresh t' (List.mem_cons_of_mem _ ht'), ?_⟩
        simp only [List.map_cons, List.map_nil, List.mem_singleton]
        intro hcontra
        exact hnd.1 (hcontra ▸ List.mem_map_of_mem pyUpper ht')
      · simp only [hins, List.map_append, List.sum_append, h1]
        simp
      · simp only [hins, List.map_append, List.sum_append, h2]
        simp
      · simp only [hins, List.map_append, List.sum_append, h3]
        simp

/-- C8 (amended): provided no two requested tags share the same
upper-cased form, `total_passed`, `total_failed` and `total_duration` of
the assembled `TestSuiteResult` are exactly the sums of the corresponding
fields over the entries of `results` (they are set in no other way), and
the suite-level `coverage` equals the coverage of the `"UIT"` entry when
present and `0` otherwise. With a repeated tag the totals count the
repeated run twice while `results` keeps one entry, breaking the claim as
frozen. -/
theorem c8_totals_and_coverage (env : Env) (tags : List String)
    (hnd : (tags.map pyUpper).Nodup) :
    (run_all env (some tags)).total_passed =
        ((run_all env (some tags)).results.map fun kv => kv.2.passed).sum ∧
      (run_all env (some tags)).total_failed =
        ((run_all env (some tags)).results.map fun kv => kv.2.failed).sum ∧
      (run_all env (some tags)).total_duration =
        ((run_all env (some tags)).results.map fun kv => kv.2.duration).sum ∧
      (run_all env (some tags)).coverage =
        ((lookupKV (run_all env (some tags)).results "UIT").map
          TestTypeResult.coverage).getD 0 := by
  have heq := run_all_eq_foldl env (some tags)
  have hfold := foldl_totals env tags (initSuite env) hnd
    (by intro t' ht'; simp [initSuite]) rfl rfl rfl
  refine ⟨?_, ?_, ?_, ?_⟩
  · rw [heq.1, heq.2.1]
    exact hfold.1
  · rw [heq.1, heq.2.2.1]
    exact hfold.2.1
  · rw [heq.1, heq.2.2.2.1]
    exact hfold.2.2
  · simp only [run_all, Option.getD_some]
    rcases hl : lookupKV ((tags.foldl (runAllStep env) (initSuite env)).results) "UIT"
      with _ | u <;> simp only [hl]
    · rw [foldl_coverage]
      rfl
    · rfl

/-- Witness for C8: the Scenario E run over `["UIT", "Smoke"]`. -/
theorem c8_witness :
    (run_all envE (some ["UIT", "Smoke"])).total_passed =
        ((run_all envE (some ["UIT", "Smoke"])).results.map fun kv => kv.2.passed).sum ∧
      (run_all envE (some ["UIT", "Smoke"])).total_failed =
        ((run_all envE (some ["UIT", "Smoke"])).results.map fun kv => kv.2.failed).sum ∧
      (run_all envE (some ["UIT", "Smoke"])).total_duration =
        ((run_all envE (some ["UIT", "Smoke"])).results.map fun kv => kv.2.duration).sum ∧
      (run_all envE (some ["UIT", "Smoke"])).coverage =
        ((lookupKV (run_all envE (some ["UIT", "Smoke"])).results "UIT").map
          TestTypeResult.coverage).getD 0 :=
  c8_totals_and_coverage envE ["UIT", "Smoke"] (by decide)

/-- Counterexample for C8 as frozen: requesting `["Smoke", "smoke"]` runs
the smoke suite twice, doubling `total_passed`, while `results` keeps a
single `"SMOKE"` entry — the total is `2` but the sum over `results`
is `1`. -/
theorem c8_counterexample :
    (run_all (pwEnv rootB) (some ["Smoke", "smoke"])).total_passed = 2 ∧
      ((run_all (pwEnv rootB) (some ["Smoke", "smoke"])).results.map
        fun kv => kv.2.passed).sum = 1 ∧
      (2 : Int) ≠ 1 :=
  ⟨by rfl, by rfl, by decide⟩

/-! ## Helper lemmas: the structured and fallback Playwright paths -/

/-- On the structured path the counts are status counts over the
flattened cases and `test_cases` is exactly the flattened tree. -/
theorem run_playwright_structured (env : Env) (p t : String) (rc : Int)
    (so se : String) (root : PwRoot)
    (h1 : env.setup.has_playwright = true)
    (h2 : env.specFilesFound p = true)
    (h3 : env.procRun (pwCmd p t) = .ok rc so se)
    (h4 : env.pwJsonLoads so = some root) :
    (run_playwright_tests env p t).test_cases = parsePwSuites env root.suites "" ∧
      (run_playwright_tests env p t).passed =
        ((parsePwSuites env root.suites "").countP fun tc => tc.status = "passed") ∧
      (run_playwright_tests env p t).failed =
        ((parsePwSuites env root.suites "").countP fun tc => tc.status = "failed") ∧
      (run_playwright_tests env p t).skipped =
        ((parsePwSuites env root.suites "").countP fun tc => tc.status = "skipped") := by
  unfold run_playwright_tests
  rw [if_neg (by simp [h1]), if_neg (by simp [h2])]
  simp only [h3, h4]
  rcases hd : searchToks pwDurPat (so ++ se).data with _ | g <;> simp only [hd]
  · exact ⟨by trivial, by trivial, by trivial, by trivial⟩
  · rcases hf : pyFloatQ g with _ | v <;> simp only [hf]
    · exact ⟨by trivial, by trivial, by trivial, by trivial⟩
    · exact ⟨by trivial, by trivial, by trivial, by trivial⟩

/-- The statuses that the structured path's counts recognise. -/
def isCountedStatus (tc : TestCase) : Bool :=
  tc.status = "passed" || tc.status = "failed" || tc.status = "skipped"

theorem countP_add_disjoint {α : Type} (p q : α → Bool) (l : List α)
    (h : ∀ a ∈ l, p a = false ∨ q a = false) :
    l.countP p + l.countP q = l.countP fun a => p a || q a := by
  induction l with
  | nil => rfl
  | cons a rest ih =>
    have hrest : ∀ x ∈ rest, p x = false ∨ q x = false :=
      fun x hx => h x (List.mem_cons_of_mem _ hx)
    have hih := ih hrest
    simp only [List.countP_cons]
    rcases hpa : p a <;> rcases hqa : q a
    · simp only [hpa, hqa, Bool.or_self, if_neg, Bool.false_eq_true,
        if_false]
      omega
    · simp only [hpa, hqa, Bool.false_or, if_true, Bool.false_eq_true, if_false]
      omega
    · simp only [hpa, hqa, Bool.or_false, if_true, Bool.false_eq_true, if_false]
      omega
    · rcases h a (List.mem_cons_self _ _) with h2 | h2
      · rw [hpa] at h2
        cases h2
      · rw [hqa] at h2
        cases h2

theorem countP_three_statuses (l : List TestCase) :
    (l.countP fun tc => tc.status = "passed") +
        (l.countP fun tc => tc.status = "failed") +
        (l.countP fun tc => tc.status = "skipped") =
      l.countP isCountedStatus := by
  have h1 : ∀ tc ∈ l, decide (tc.status = "passed") = false ∨
      decide (tc.status = "failed") = false := by
    intro tc _
    by_cases h : tc.status = "passed"
    · right
      simp [h]
    · left
      simp [h]
  have h2 : ∀ tc ∈ l,
      (decide (tc.status = "passed") || decide (tc.status = "failed")) = false ∨
      decide (tc.status = "skipped") = false := by
    intro tc _
    by_cases h : tc.status = "skipped"
    · left
      simp [h]
    · right
      simp [h]
  rw [countP_add_disjoint _ _ l h1, countP_add_disjoint _ _ l h2]
  rfl

/-- C2 (amended): for every result of the structured browser-automation
path, `passed + failed + skipped` equals the number of cases whose status
is one of `passed`, `failed`, `skipped`; this equals `len(cases)` exactly
when every case status lies in that set (a status such as `timedOut`
breaks the frozen equality), and the other parsing paths give no such
guarantee at all. -/
theorem c2_counts_match_cases (env : Env) (p t : String) (rc : Int)
    (so se : String) (root : PwRoot)
    (h1 : env.setup.has_playwright = true)
    (h2 : env.specFilesFound p = true)
    (h3 : env.procRun (pwCmd p t) = .ok rc so se)
    (h4 : env.pwJsonLoads so = some root) :
    (run_playwright_tests env p t).test_cases = parsePwSuites env root.suites "" ∧
      (run_playwright_tests env p t).passed + (run_playwright_tests env p t).failed +
          (run_playwright_tests env p t).skipped =
        ((run_playwright_tests env p t).test_cases.countP isCountedStatus : Int) ∧
      ((∀ tc ∈ (run_playwright_tests env p t).test_cases, isCountedStatus tc = true) →
        (run_playwright_tests env p t).passed + (run_playwright_tests env p t).failed +
            (run_playwright_tests env p t).skipped =
          ((run_playwright_tests env p t).test_cases.length : Int)) := by
  obtain ⟨hc, hp, hf, hs⟩ := run_playwright_structured env p t rc so se root h1 h2 h3 h4
  refine ⟨hc, ?_, ?_⟩
  · rw [hp, hf, hs, hc]
    exact_mod_cast countP_three_statuses (parsePwSuites env root.suites "")
  · intro hall
    rw [hp, hf, hs, hc]
    have hnat : (parsePwSuites env root.suites "").countP (fun tc => tc.status = "passed") +
        (parsePwSuites env root.suites "").countP (fun tc => tc.status = "failed") +
        (parsePwSuites env root.suites "").countP (fun tc => tc.status = "skipped") =
        (parsePwSuites env root.suites "").length := by
      rw [countP_three_statuses]
      apply List.countP_eq_length.mpr
      intro tc htc
      exact hall tc (by rw [hc]; exact htc)
    exact_mod_cast hnat

/-- Witness for C2: the Scenario B environment, whose single case has
status `passed`. -/
theorem c2_witness :
    (run_playwright_tests envB "smoke.spec.ts" "Smoke").passed +
        (run_playwright_tests envB "smoke.spec.ts" "Smoke").failed +
        (run_playwright_tests envB "smoke.spec.ts" "Smoke").skipped =
      ((run_playwright_tests envB "smoke.spec.ts" "Smoke").test_cases.length : Int) :=
  (c2_counts_match_cases envB "smoke.spec.ts" "Smoke" 0 "PWJSON" "" rootB
    rfl rfl rfl rfl).2.2 (by decide)

/-- Counterexample for C2 as frozen: a structured report whose only
attempt has status `timedOut` yields one case but
`passed + failed + skipped = 0`. -/
theorem c2_counterexample :
    (run_playwright_tests envTimedOut "smoke.spec.ts" "Smoke").passed +
        (run_playwright_tests envTimedOut "smoke.spec.ts" "Smoke").failed +
        (run_playwright_tests envTimedOut "smoke.spec.ts" "Smoke").skipped = 0 ∧
      (run_playwright_tests envTimedOut "smoke.spec.ts" "Smoke").test_cases.length = 1 ∧
      (0 : Int) ≠ 1 :=
  ⟨by rfl, by rfl, by decide⟩

/-- On the fallback path the synthesized cases are exactly the stripped
second groups of the matched lines, each with status `"passed"` and the
default duration. -/
theorem run_playwright_fallback_cases (env : Env) (p t : String) (rc : Int)
    (so se : String)
    (h1 : env.setup.has_playwright = true)
    (h2 : env.specFilesFound p = true)
    (h3 : env.procRun (pwCmd p t) = .ok rc so se)
    (h4 : env.pwJsonLoads so = none) :
    (run_playwright_tests env p t).test_cases =
      (env.pwCaseMatches (String.mk (stripAnsiL (so ++ se).data))).map
        fun g => { name := pyStrip g, status := "passed" } := by
  unfold run_playwright_tests
  rw [if_neg (by simp [h1]), if_neg (by simp [h2])]
  simp only [h3, h4, ite_self]
  rcases hps : searchToks spacePassedPat (stripAnsiL (so ++ se).data) with _ | g1 <;>
    simp only [hps] <;>
    rcases hfs : searchToks spaceFailedPat (stripAnsiL (so ++ se).data) with _ | g2 <;>
    simp only [hfs] <;>
    rcases hd : searchToks pwDurPat (so ++ se).data with _ | g <;>
    simp only [hd] <;>
    (rcases hf : pyFloatQ g with _ | v <;> simp only [hf])

/-- C10: whenever the browser-automation parser falls back to textual
parsing because the JSON payload is undecodable, every synthesized
`TestCase` has status `"passed"` and duration `0`, regardless of the
matched line. -/
theorem c10_fallback_cases_always_pass (env : Env) (p t : String) (rc : Int)
    (so se : String)
    (h1 : env.setup.has_playwright = true)
    (h2 : env.specFilesFound p = true)
    (h3 : env.procRun (pwCmd p t) = .ok rc so se)
    (h4 : env.pwJsonLoads so = none) :
    ∀ tc ∈ (run_playwright_tests env p t).test_cases,
      tc.status = "passed" ∧ tc.duration = 0 := by
  intro tc htc
  rw [run_playwright_fallback_cases env p t rc so se h1 h2 h3 h4] at htc
  rcases List.mem_map.mp htc with ⟨g0, _, rfl⟩
  exact ⟨rfl, rfl⟩

/-- Fallback environment for the C10 witness: the smoke run's stdout does
not decode and the line oracle reports one matched test line. -/
def envFallback : Env :=
  { pwEnv rootB with
    pwJsonLoads := fun _ => none
    pwCaseMatches := fun _ => ["Smoke Tests › SMOKE-01"] }

/-- The single case the fallback path synthesizes in `envFallback`. -/
def tcFallback : TestCase :=
  { name := "Smoke Tests › SMOKE-01", status := "passed" }

/-- Witness for C10: the synthesized case of `envFallback` has status
`passed` and duration `0`. -/
theorem c10_witness : tcFallback.status = "passed" ∧ tcFallback.duration = 0 :=
  c10_fallback_cases_always_pass envFallback "smoke.spec.ts" "Smoke" 0 "PWJSON" ""
    rfl rfl rfl rfl tcFallback (by decide)

/-! ## C5 and C4: the vitest paths -/

theorem uitOverrides_id {r : TestTypeResult} {clean : List Char}
    (h6 : searchToks testsPassedPat clean = none)
    (h7 : searchToks anyPassedWsPat clean = none)
    (h8 : searchToks anyFailedWsPat clean = none) :
    uitOverrides r clean = r := by
  unfold uitOverrides
  rw [h6, h7, h8]

/-- C5 (amended): a vitest run exiting 0 whose stdout is only the text
`3 passed (43ms)` gives the fallback parse `passed = 3`, but
`duration = 0.0`, not `0.043`: the fallback only reads a duration from a
`Duration <n>ms` / `Duration <n>s` token, which this output lacks. -/
theorem c5_scenario_d (env : Env)
    (h1 : env.setup.has_vitest = true)
    (h2 : env.procRun (vitestCmd true) = .ok 0 "3 passed (43ms)" "") :
    (run_uit env true).passed = 3 ∧ (run_uit env true).duration = 0 ∧
      (run_uit env true).success = true := by
  unfold run_uit
  rw [if_pos h1]
  unfold runUitVitest
  rw [h2]
  exact ⟨rfl, rfl, rfl⟩

/-- Witness for C5: the Scenario D environment. -/
theorem c5_witness :
    envD.setup.has_vitest = true ∧
      ((run_uit envD true).passed = 3 ∧ (run_uit envD true).duration = 0 ∧
        (run_uit envD true).success = true) :=
  ⟨rfl, c5_scenario_d envD rfl rfl⟩

/-- Counterexample for C5 as frozen: at the Scenario D input the duration
is `0`, not `0.043`. -/
theorem c5_counterexample :
    (run_uit envD true).duration = 0 ∧ (0 : ℚ) ≠ 43 / 1000 :=
  ⟨by rfl, by norm_num⟩

theorem uitJsonStage_of_loads {env : Env} {r0 : TestTypeResult} {so g : String}
    {cl : List Char} {payload : VitestPayload}
    (hg : vitestJsonSearch so = some g)
    (hl : env.vitestJsonLoads g = some payload) :
    uitJsonStage env r0 so cl =
      (match searchToks allFilesPat cl with
      | some cg =>
        match pyFloatQ cg with
        | none =>
          .inr ({ r0 with
            passed := payload.numPassedTests
            failed := payload.numFailedTests }, floatErrMsg cg)
        | some cv =>
          .inl { r0 with
            passed := payload.numPassedTests
            failed := payload.numFailedTests
            coverage := cv
            test_cases := vitestCases payload }
      | none =>
        .inl { r0 with
          passed := payload.numPassedTests
          failed := payload.numFailedTests
          test_cases := vitestCases payload }) := by
  unfold uitJsonStage
  simp only [hg, hl]

/-- C4 (amended): when the vitest stdout carries a decodable JSON payload
reporting `numPassedTests = 12`, `numFailedTests = 1`, and the combined
output contains no overriding textual summary (no `Tests <n> passed`,
`<n> passed` or `<n> failed` line), the `UIT` entry has `passed = 12` and
`failed = 1`; `success` follows the exit code alone, so when the run
additionally exits nonzero (as the runner does when a test fails),
`success = false` and `overall_success = false` even with no other type
requested. -/
theorem c4_scenario_a (env : Env) (rc : Int) (so se g : String)
    (payload : VitestPayload)
    (h1 : env.setup.has_vitest = true)
    (h2 : env.procRun (vitestCmd true) = .ok rc so se)
    (hg : vitestJsonSearch so = some g)
    (hl : env.vitestJsonLoads g = some payload)
    (hp12 : payload.numPassedTests = 12)
    (hf1 : payload.numFailedTests = 1)
    (h6 : searchToks testsPassedPat (stripAnsiL (so ++ se).data) = none)
    (h7 : searchToks anyPassedWsPat (stripAnsiL (so ++ se).data) = none)
    (h8 : searchToks anyFailedWsPat (stripAnsiL (so ++ se).data) = none)
    (h9 : rc ≠ 0) :
    (run_uit env true).passed = 12 ∧ (run_uit env true).failed = 1 ∧
      (run_uit env true).success = false ∧
      lookupKV (run_all env (some ["UIT"])).results "UIT" =
        some (run_uit env true) ∧
      (run_all env (some ["UIT"])).overall_success = false := by
  have hrc : (rc == 0) = false := by
    simpa using h9
  have key : (run_uit env true).passed = 12 ∧ (run_uit env true).failed = 1 ∧
      (run_uit env true).success = false := by
    unfold run_uit
    rw [if_pos h1]
    simp only [runUitVitest, h2]
    rw [uitJsonStage_of_loads hg hl]
    rcases hcov : searchToks allFilesPat (stripAnsiL (so ++ se).data) with _ | cg <;>
      simp only [hcov]
    · rw [uitOverrides_id h6 h7 h8]
      refine ⟨?_, ?_, ?_⟩
      · rw [uitCovDur_passed]
        exact hp12
      · rw [uitCovDur_failed]
        exact hf1
      · exact uitCovDur_success_false _ _ hrc
    · rcases hfl : pyFloatQ cg with _ | cv <;> simp only [hfl]
      · exact ⟨hp12, hf1, trivial⟩
      · rw [uitOverrides_id h6 h7 h8]
        refine ⟨?_, ?_, ?_⟩
        · rw [uitCovDur_passed]
          exact hp12
        · rw [uitCovDur_failed]
          exact hf1
        · exact uitCovDur_success_false _ _ hrc
  refine ⟨key.1, key.2.1, key.2.2, by rfl, ?_⟩
  show (true && (run_uit env true).success) = false
  rw [key.2.2]
  rfl

/-- Witness for C4: the Scenario A environment with exit code 1. -/
theorem c4_witness :
    (run_uit (envA 1) true).passed = 12 ∧ (run_uit (envA 1) true).failed = 1 ∧
      (run_uit (envA 1) true).success = false ∧
      lookupKV (run_all (envA 1) (some ["UIT"])).results "UIT" =
        some (run_uit (envA 1) true) ∧
      (run_all (envA 1) (some ["UIT"])).overall_success = false :=
  c4_scenario_a (envA 1) 1 jsonA "" jsonA payloadA rfl rfl (by rfl) (by rfl)
    rfl rfl (by rfl) (by rfl) (by rfl) (by decide)

/-- Counterexample for C4 as frozen: the same decodable payload with exit
code 0 yields `success = true` and `overall_success = true`, because
`success` is derived from the exit code, not from the failure count. -/
theorem c4_counterexample :
    (run_uit (envA 0) true).passed = 12 ∧ (run_uit (envA 0) true).failed = 1 ∧
      (run_uit (envA 0) true).success = true ∧
      (run_all (envA 0) (some ["UIT"])).overall_success = true :=
  ⟨by rfl, by rfl, by rfl, by rfl⟩

/-! ## C6: qualified names of the flattener -/

theorem joinTitles_append (anc : List String) (t : String) :
    joinTitles (anc ++ [t]) =
      if joinTitles anc = "" then t else joinTitles anc ++ " › " ++ t := by
  unfold joinTitles
  rw [List.foldl_append]
  rfl

theorem joinTitles_step (anc : List String) (t : String) :
    (if joinTitles anc ≠ "" then joinTitles anc ++ " › " ++ t else t) =
      joinTitles (anc ++ [t]) := by
  rw [joinTitles_append]
  by_cases h : joinTitles anc = "" <;> simp [h]

mutual

/-- Names emitted by the flattener are exactly the specified join of the
ancestor chain with each leaf title, in tree order. -/
theorem parsePwSuite_names (env : Env) (s : PwSuite) (anc : List String) :
    (parsePwSuite env s (joinTitles anc)).map TestCase.name = specNames s anc := by
  cases s with
  | mk title specs suites =>
    simp only [parsePwSuite, specNames, List.map_append]
    rw [joinTitles_step anc title]
    congr 1
    · rw [List.map_flatMap]
      induction specs with
      | nil => rfl
      | cons sp rest ih =>
        simp only [List.flatMap_cons]
        congr 1
        · rw [List.map_map]
          apply List.map_eq_map_iff.mpr
          intro t _
          show (if joinTitles (anc ++ [title]) ≠ "" then
              joinTitles (anc ++ [title]) ++ " › " ++ sp.title else sp.title) =
            joinTitles (anc ++ [title, sp.title])
          rw [joinTitles_step]
          simp

    · exact parsePwSuites_names env suites (anc ++ [title])

/-- List version of `parsePwSuite_names`, sibling by sibling. -/
theorem parsePwSuites_names (env : Env) (l : PwSuiteList) (anc : List String) :
    (parsePwSuites env l (joinTitles anc)).map TestCase.name = specNamesList l anc := by
  cases l with
  | nil => rfl
  | cons s rest =>
    simp only [parsePwSuites, specNamesList, List.map_append]
    rw [parsePwSuite_names env s anc, parsePwSuites_names env rest anc]

end

/-- C6: every `TestCase` name emitted by the flattener equals the
delimiter-joined concatenation of the ancestor suite titles plus the leaf
title, in tree order, with an empty running prefix omitting the leading
delimiter; in particular the Scenario B tree (suite `Checkout`, spec
`adds item to cart`, one passing 1200 ms attempt) yields exactly one case
named `Checkout › adds item to cart` with status `passed` and positive
duration. -/
theorem c6_qualified_names :
    (∀ (env : Env) (s : PwSuite) (anc : List String),
      (parsePwSuite env s (joinTitles anc)).map TestCase.name = specNames s anc) ∧
    (run_playwright_tests envB "smoke.spec.ts" "Smoke").test_cases.map TestCase.name =
      ["Checkout › adds item to cart"] ∧
    (run_playwright_tests envB "smoke.spec.ts" "Smoke").test_cases.map TestCase.status =
      ["passed"] ∧
    (run_playwright_tests envB "smoke.spec.ts" "Smoke").test_cases.map TestCase.duration =
      [1200 / 1000] ∧
    (0 : ℚ) < 1200 / 1000 :=
  ⟨parsePwSuite_names, by rfl, by rfl, by rfl, by norm_num⟩

/-! ## C7: which attempt the emitted case fields come from -/

theorem pwAttachStep_fold (env : Env) (atts : List PwAttachment) (s0 a0 : String) :
    atts.foldl (pwAttachStep env) (s0, a0) =
      (((atts.filter fun att => att.name = "screenshot" ∧ att.path ≠ "").getLast?.map
          PwAttachment.path).getD s0,
       ((atts.filter fun att => att.name = "api-response" ∧ att.body ≠ "").getLast?.map
          (pwDecodeBody env)).getD a0) := by
  induction atts using List.reverseRecOn with
  | nil => rfl
  | append_singleton atts att ih =>
    rw [List.foldl_append, ih]
    simp only [List.foldl_cons, List.foldl_nil, List.filter_append, List.filter_cons,
      List.filter_nil]
    unfold pwAttachStep
    by_cases h1 : att.name = "screenshot" ∧ att.path ≠ ""
    · have h2 : ¬(att.name = "api-response" ∧ att.body ≠ "") := by
        intro hcon
        have hx : ("screenshot" : String) = "api-response" := by
          rw [← h1.1]
          exact hcon.1
        exact absurd hx (by decide)
      simp [h1, h2]
    · rw [if_neg h1]
      by_cases h2 : att.name = "api-response" ∧ att.body ≠ ""
      · simp [h1, h2]
      · simp [h1, h2]

theorem pwAttemptStep_foldl_spec (env : Env) (l : List PwAttemptResult)
    (s0 : String) (d0 : ℚ) (e0 scr0 api0 : String) :
    l.foldl (pwAttemptStep env) (s0, d0, e0, scr0, api0) =
      ((l.getLast?.map PwAttemptResult.status).getD s0,
       (l.getLast?.map fun a => a.duration / 1000).getD d0,
       ((l.filterMap PwAttemptResult.error).getLast?.map
          fun e => e.message.take 200).getD e0,
       ((l.flatMap fun a =>
          a.attachments.filter fun att =>
            att.name = "screenshot" ∧ att.path ≠ "").getLast?.map
          PwAttachment.path).getD scr0,
       ((l.flatMap fun a =>
          a.attachments.filter fun att =>
            att.name = "api-response" ∧ att.body ≠ "").getLast?.map
          (pwDecodeBody env)).getD api0) := by
  induction l using List.reverseRecOn with
  | nil => rfl
  | append_singleton l a ih =>
    rw [List.foldl_append, ih]
    simp only [List.foldl_cons, List.foldl_nil, List.getLast?_concat,
      List.filterMap_append, List.flatMap_append, List.flatMap_cons,
      List.flatMap_nil, List.append_nil, Option.map_some, Option.getD_some]
    unfold pwAttemptStep
    rw [pwAttachStep_fold]
    refine Prod.ext rfl (Prod.ext rfl (Prod.ext ?_ (Prod.ext ?_ ?_))) <;> simp only
    · rcases he : a.error with _ | e
      · simp [List.filterMap_cons, he]
      · simp [List.filterMap_cons, he, List.getLast?_concat]
    · rcases hsc : (a.attachments.filter fun att =>
          att.name = "screenshot" ∧ att.path ≠ "").getLast? with _ | attS
      · rw [List.getLast?_eq_none_iff.mp hsc]
        simp
      · have hne : (a.attachments.filter fun att =>
            att.name = "screenshot" ∧ att.path ≠ "") ≠ [] := by
          intro hcon
          rw [hcon] at hsc
          cases hsc
        rw [List.getLast?_append_of_ne_nil _ hne, hsc]
        simp
    · rcases hap : (a.attachments.filter fun att =>
          att.name = "api-response" ∧ att.body ≠ "").getLast? with _ | attA
      · rw [List.getLast?_eq_none_iff.mp hap]
        simp
      · have hne : (a.attachments.filter fun att =>
            att.name = "api-response" ∧ att.body ≠ "") ≠ [] := by
          intro hcon
          rw [hcon] at hap
          cases hap
        rw [List.getLast?_append_of_ne_nil _ hne, hap]
        simp

/-- C7 (amended): the emitted case's status and duration come from the
last recorded attempt, but `error` is the truncated message of the last
attempt that has an error, and the screenshot path and decoded response
body come from the last attempt carrying such an attachment — earlier
attempts do contribute those fields when the final attempt lacks them. -/
theorem c7_field_provenance (env : Env) (l : List PwAttemptResult) :
    parsePwAttempts env l =
      (lastAttemptStatus l, lastAttemptDur l, lastErrMsg l,
        lastScreenshot l, lastApi env l) := by
  unfold parsePwAttempts lastAttemptStatus lastAttemptDur lastErrMsg lastScreenshot lastApi
  exact pwAttemptStep_foldl_spec env l "passed" 0 "" "" ""

/-- Counterexample for C7 as frozen: with a failed first attempt (error
`boom`, screenshot `s.png`) retried by a clean passing attempt, the
emitted case keeps the first attempt's error and screenshot even though
the last attempt has neither. -/
theorem c7_counterexample :
    parsePwSuites envRetry rootRetry.suites "" =
      [{ name := "S › t", status := "passed", duration := 2000 / 1000,
         error := "boom", screenshot := "s.png" }] ∧
      attemptPassed.error = none ∧ attemptPassed.attachments = [] ∧
      ("boom" : String) ≠ "" ∧ ("s.png" : String) ≠ "" := by
  refine ⟨?_, rfl, rfl, by decide, by decide⟩
  rfl

end DashDevtools
